import Mathlib

/-!
Shallow embedding of `server/server.py` (a small threaded web server with a
metrics/session aggregator), together with theorems checking the
natural-language specification against it.

Modelling conventions:
* Python floats are modelled as exact rationals (`ℚ`); Python ints as `ℕ`/`ℤ`.
* `time.time()` / `now()` values are passed in as explicit parameters
  (`rt` for the measured response time, `t` for the wall-clock tick).
* `uuid.uuid4().hex[:16]` is passed in as an explicit fresh-identifier
  parameter `sid`.
* Python dicts are modelled as association lists preserving insertion order
  (CPython semantics: updating an existing key keeps its position, a new key
  is appended).
* The filesystem under `server/static` is a parameter
  `fs : String → FsEntry` mapping a location to "absent", "read error"
  (open/read raises) or file content.
-/

set_option maxHeartbeats 1000000

namespace WebServerModel

/-- Association list lookup, modelling Python dict membership and indexing
(`k in d` / `d[k]` / `d.get(k)`). -/
def alGet {β : Type} : List (String × β) → String → Option β
  | [], _ => none
  | (k', v) :: t, k => if k' = k then some v else alGet t k

/-- Association list update, modelling Python dict assignment `d[k] = v`:
an existing key keeps its position and is overwritten, a new key is appended
at the end (CPython dicts preserve insertion order). -/
def alSet {β : Type} : List (String × β) → String → β → List (String × β)
  | [], k, v => [(k, v)]
  | (k', v') :: t, k, v =>
      if k' = k then (k, v) :: t else (k', v') :: alSet t k v

/-- Lookup with default, modelling `d.get(k, dflt)`. -/
def alGetD {β : Type} (l : List (String × β)) (k : String) (d : β) : β :=
  (alGet l k).getD d

/-- The auto-initialising counter increment used for `status_codes` and
`geo` in `WebServer.record`: `if k not in d: d[k] = 0` followed by
`d[k] += 1`. -/
def alBump (l : List (String × ℕ)) (k : String) : List (String × ℕ) :=
  alSet l k (alGetD l k 0 + 1)

/-- Python slice `l[-n:]`: the last `min n (length l)` elements. -/
def takeLast {α : Type} (n : ℕ) (l : List α) : List α :=
  l.drop (l.length - n)

/-- Whitespace characters recognised by Python `str.split()` with no
separator argument. -/
def isPySpace (c : Char) : Bool :=
  c = ' ' || c = '\t' || c = '\n' || c = '\r' || c = '\x0b' || c = '\x0c'

/-- Helper for `pySplit`: split on runs of whitespace, accumulating the
current word in reverse. -/
def splitWsAux : List Char → List Char → List String
  | acc, [] => if acc.isEmpty then [] else [acc.reverse.asString]
  | acc, c :: t =>
      if isPySpace c then
        if acc.isEmpty then splitWsAux [] t
        else acc.reverse.asString :: splitWsAux [] t
      else splitWsAux (c :: acc) t

/-- Python `str.split()` with no argument: split on runs of whitespace,
discarding empty pieces. -/
def pySplit (s : String) : List String :=
  splitWsAux [] s.toList

/-- Split a character list at every occurrence of CRLF, as Python
`req.split("\r\n")` does (left to right, non-overlapping, keeping empty
pieces). -/
def splitCRLF : List Char → List (List Char)
  | [] => [[]]
  | '\r' :: '\n' :: t => [] :: splitCRLF t
  | c :: t =>
      match splitCRLF t with
      | [] => [[c]]
      | h :: r => (c :: h) :: r

/-- Python `req.split("\r\n")` on strings. -/
def pySplitCRLF (s : String) : List String :=
  (splitCRLF s.toList).map List.asString

/-- Characters of a line before its first colon (the key part of
`line.split(":", 1)`). -/
def beforeColon : List Char → List Char
  | [] => []
  | c :: t => if c = ':' then [] else c :: beforeColon t

/-- Characters of a line after its first colon (the value part of
`line.split(":", 1)`). -/
def afterColon : List Char → List Char
  | [] => []
  | c :: t => if c = ':' then t else afterColon t

/-- Python `str.strip()`: drop whitespace from both ends. -/
def pyStrip (s : String) : String :=
  ((s.toList.dropWhile isPySpace).reverse.dropWhile isPySpace).reverse.asString

/-- Python `str.lower()` (ASCII case folding suffices for the user-agent
keywords the server matches on). -/
def strLower (s : String) : String :=
  (s.toList.map Char.toLower).asString

/-- Boolean prefix test on character lists. -/
def listPrefixB : List Char → List Char → Bool
  | [], _ => true
  | _ :: _, [] => false
  | a :: as, b :: bs => a = b && listPrefixB as bs

/-- Boolean contiguous-substring test on character lists. -/
def listInfixB (p : List Char) : List Char → Bool
  | [] => p.isEmpty
  | c :: t => listPrefixB p (c :: t) || listInfixB p t

/-- Python `pat in hay` on strings: contiguous substring containment. -/
def strIn (pat hay : String) : Bool :=
  listInfixB pat.toList hay.toList

/-- Round-half-to-even to an integer, as Python `round` does on exact
values (the model works in `ℚ`, so ties are resolved to the even integer
exactly as `round` specifies). -/
def rhe (x : ℚ) : ℤ :=
  let f := ⌊x⌋
  let r := x - (f : ℚ)
  if r < 1/2 then f
  else if 1/2 < r then f + 1
  else if f % 2 = 0 then f else f + 1

/-- Python `round(x, d)` for `d` decimal digits, modelled exactly over `ℚ`. -/
def pyRoundTo (x : ℚ) (d : ℕ) : ℚ :=
  (rhe (x * 10 ^ d) : ℚ) / 10 ^ d

/-- `detect_device` (source lines 40–46): case-insensitive substring match
on the user agent. -/
def detect_device (ua : String) : String :=
  let u := strLower ua
  if strIn "mobile" u || strIn "android" u || strIn "iphone" u then "mobile"
  else if strIn "tablet" u || strIn "ipad" u then "tablet"
  else "desktop"

/-- `guess_country_from_ip` (source lines 53–58): deterministic pseudo-geo
bucket from the sum of the code points of the IP string. -/
def guess_country_from_ip (ip : String) : String :=
  let buckets := ["IN", "US", "GB", "DE", "FR", "AU", "BR"]
  buckets.getD ((ip.toList.map Char.toNat).sum % buckets.length) ""

/-- One entry of `metrics["recent_requests"]` (dict built in
`WebServer.record`, source lines 243–250). -/
structure RecentEntry where
  ip : String
  path : String
  response_time : ℚ
  status_code : ℕ
  time : ℕ
  country : String
deriving DecidableEq

/-- One row of `session_data` (dicts built in `_ensure_session_for_ip` and
`WebServer.record`; the session summary built by `_get_metrics_copy` and
`get_session_summary` copies exactly these fields). -/
structure SessionRow where
  session_id : String
  first_seen : ℕ
  last_seen : ℕ
  hit_count : ℕ
  last_path : Option String
  device_type : String
deriving DecidableEq

/-- The whole module-level mutable state of `server/server.py`: the
`metrics` dict (lines 14–31), `session_data` (line 33) and `file_cache`
(line 34). -/
structure ServerState where
  active_clients : ℤ
  total_requests : ℕ
  average_response_time : ℚ
  recent_requests : List RecentEntry
  cache_enabled : Bool
  cache_hits : ℕ
  cache_misses : ℕ
  response_times : List ℚ
  unique_sessions : ℕ
  thread_pool_size : ℕ
  queue_size : ℕ
  latency_trend : List ℚ
  status_codes : List (String × ℕ)
  geo : List (String × ℕ)
  session_data : List (String × SessionRow)
  file_cache : List (String × String)
deriving DecidableEq

/-- `MAX_RECENT` (source line 36). -/
def MAX_RECENT : ℕ := 100

/-- `MAX_LAT` (source line 37). -/
def MAX_LAT : ℕ := 120

/-- The initial module-level state (the literal `metrics` dict of source
lines 14–31 plus empty `session_data` and `file_cache`). -/
def initState : ServerState :=
  { active_clients := 0
    total_requests := 0
    average_response_time := 0
    recent_requests := []
    cache_enabled := true
    cache_hits := 0
    cache_misses := 0
    response_times := []
    unique_sessions := 0
    thread_pool_size := 10
    queue_size := 0
    latency_trend := []
    status_codes := [("200", 0), ("400", 0), ("404", 0), ("500", 0)]
    geo := []
    session_data := []
    file_cache := [] }

/-- Result of probing the static-file tree at a location: the path is not
an existing regular file; or it exists but `open`/`read` raises; or it has
the given content. -/
inductive FsEntry
  | absent
  | readError
  | content (body : String)
deriving DecidableEq

/-- `path.lstrip("/")`: strip all leading slashes. -/
def lstripSlash (p : String) : String :=
  (p.toList.dropWhile (fun c => c = '/')).asString

/-- `os.path.join("server", "static", path.lstrip("/"))` on a POSIX
system. -/
def locOf (path : String) : String :=
  "server/static/" ++ lstripSlash path

/-- `WebServer.get_file` (source lines 195–221), returning
`((body, status_code), new state)`. -/
def get_file (s : ServerState) (fs : String → FsEntry) (path : String) :
    (String × ℕ) × ServerState :=
  if s.cache_enabled && (alGet s.file_cache path).isSome then
    (((alGet s.file_cache path).getD "", 200),
      { s with cache_hits := s.cache_hits + 1 })
  else
    let s1 := { s with cache_misses := s.cache_misses + 1 }
    match fs (locOf path) with
    | .content body =>
        let s2 :=
          if s1.cache_enabled then
            { s1 with file_cache := alSet s1.file_cache path body }
          else s1
        ((body, 200), s2)
    | .readError => (("<h1>500 - File read error</h1>", 500), s1)
    | .absent => (("<h1>404 - Not Found</h1>", 404), s1)

/-- The body/status produced by the disk-resolution part of `get_file`
(source lines 206–221, below the cache check), without the caching side
effect: content → 200, read failure → 500, otherwise 404. -/
def diskResolve (fs : String → FsEntry) (path : String) : String × ℕ :=
  match fs (locOf path) with
  | .content body => (body, 200)
  | .readError => ("<h1>500 - File read error</h1>", 500)
  | .absent => ("<h1>404 - Not Found</h1>", 404)

/-- `WebServer._ensure_session_for_ip` (source lines 178–193), with the
fresh uuid `sid` and the wall-clock tick `t` passed in. Returns the
session id and the new state. (This models a single-threaded run of the
function; the unlocked check-then-insert race is modelled separately
below.) -/
def ensure_session_for_ip (s : ServerState) (ip sid : String) (t : ℕ) :
    String × ServerState :=
  match alGet s.session_data ip with
  | some row => (row.session_id, s)
  | none =>
      let sd := alSet s.session_data ip
        { session_id := sid, first_seen := t, last_seen := t,
          hit_count := 0, last_path := none, device_type := "unknown" }
      (sid, { s with session_data := sd, unique_sessions := sd.length })

/-- The session book-keeping block of `WebServer.record` (source lines
254–267): create-if-absent with hit count 0, then increment hit count and
update last-seen / last-path / device. -/
def recordSession (sd : List (String × SessionRow))
    (ip path device sid : String) (t : ℕ) : List (String × SessionRow) :=
  let sd1 :=
    match alGet sd ip with
    | none =>
        alSet sd ip
          { session_id := sid, first_seen := t, last_seen := t,
            hit_count := 0, last_path := none, device_type := device }
    | some _ => sd
  match alGet sd1 ip with
  | some row =>
      alSet sd1 ip
        { row with hit_count := row.hit_count + 1, last_seen := t,
                   last_path := some path, device_type := device }
  | none => sd1

/-- `WebServer.record` (source lines 223–272). All of it runs under
`metrics_lock`, so it is one atomic state transformation. -/
def record (s : ServerState) (ip path : String) (rt : ℚ) (code : ℕ)
    (device : String) (t : ℕ) (sid : String) : ServerState :=
  let country := guess_country_from_ip ip
  let rts := takeLast 2000 (s.response_times ++ [rt])
  { s with
    total_requests := s.total_requests + 1
    response_times := rts
    average_response_time :=
      if rts.length = 0 then 0 else rts.sum / (rts.length : ℚ)
    latency_trend := takeLast MAX_LAT (s.latency_trend ++ [rt * 1000])
    status_codes := alBump s.status_codes (toString code)
    recent_requests :=
      ({ ip := ip, path := path, response_time := pyRoundTo rt 4,
         status_code := code, time := t, country := country } ::
        s.recent_requests).take MAX_RECENT
    session_data := recordSession s.session_data ip path device sid t
    geo := alBump s.geo country }

/-- The fixed bad-request wire response of source line 127. -/
def badRequestResp : String :=
  "HTTP/1.1 400 Bad Request\r\nContent-Length:11\r\n\r\nBad Request"

/-- Header parsing loop of source lines 145–149: for each header line
containing a colon, split at the first colon, strip both pieces; a later
occurrence of the same key overwrites an earlier one. -/
def parseHeaders (lines : List String) : List (String × String) :=
  lines.foldl
    (fun h line =>
      if strIn ":" line then
        let k := (beforeColon line.toList).asString
        let v := (afterColon line.toList).asString
        alSet h (pyStrip k) (pyStrip v)
      else h)
    []

/-- Response assembly of source lines 157–162. -/
def buildResp (code : ℕ) (sessId body : String) : String :=
  "HTTP/1.1 " ++ toString code ++ " " ++
    (if code = 200 then "OK" else "") ++ "\r\n" ++
  "Content-Type: text/html\r\n" ++
  "Set-Cookie: SESSION_ID=" ++ sessId ++ "; Path=/; HttpOnly\r\n" ++
  "Content-Length: " ++ toString body.utf8ByteSize ++ "\r\n\r\n" ++ body

/-- `WebServer.handle_client` (source lines 111–176) for one connection,
returning the bytes written to the socket (`none` when nothing was sent)
and the new state. Parameters beyond the state: the filesystem `fs`, the
peer IP, the received request text `req` (after `.decode`), the measured
response time `rt`, the wall-clock tick `t`, the fresh uuid `sid`, and
`send_ok`, which is `false` when `sock.sendall` of the success-path
response raises (that exception is caught by the outer handler, skipping
`record` but still running the `finally` cleanup). A request line with
more than 3 tokens makes the tuple unpacking at source line 135 raise
`ValueError`, which the outer handler also catches. -/
def handle_client (s : ServerState) (fs : String → FsEntry)
    (ip req : String) (rt : ℚ) (t : ℕ) (sid : String) (send_ok : Bool) :
    Option String × ServerState :=
  let s0 := { s with active_clients := s.active_clients + 1 }
  let out :=
    if req = "" then (none, s0)
    else
      let lines := pySplitCRLF req
      let first := lines.headD ""
      let parts := pySplit first
      if parts.length < 3 then
        (some badRequestResp, record s0 ip "/" rt 400 "unknown" t sid)
      else if parts.length ≠ 3 then
        -- ValueError from `method, path, proto = parts`, caught at line 170
        (none, s0)
      else
        let path0 := parts.getD 1 ""
        let path := if path0 = "/" then "/index.html" else path0
        let headers := parseHeaders lines.tail
        let r1 := get_file s0 fs path
        let body := r1.1.1
        let code := r1.1.2
        let r2 := ensure_session_for_ip r1.2 ip sid t
        if send_ok then
          let device := detect_device (alGetD headers "User-Agent" "")
          (some (buildResp code r2.1 body),
            record r2.2 ip path rt code device t sid)
        else (none, r2.2)
  (out.1,
    { out.2 with active_clients := max 0 (out.2.active_clients - 1) })

/-- `sorted(...)` on rationals: Python sorts ascending (stably). -/
def sortQ (l : List ℚ) : List ℚ :=
  l.insertionSort (· ≤ ·)

/-- The clamp `j = 1 if j0 < 1 else ld-1 if j0 > ld-1 else j0` applied by
CPython `statistics.quantiles` (method `exclusive`) to the raw index
`j0 = p // n`. -/
def clampJ (ld n p : ℕ) : ℕ :=
  let j0 := p / n
  if j0 < 1 then 1 else if ld - 1 < j0 then ld - 1 else j0

/-- The interpolation `(data[j-1] * (n-delta) + data[j] * delta) / n` of
CPython `statistics.quantiles` (method `exclusive`). -/
def interpW (d : List ℚ) (n : ℕ) (j : ℕ) (delta : ℤ) : ℚ :=
  (d.getD (j - 1) 0 * ((n : ℚ) - (delta : ℚ)) +
    d.getD j 0 * (delta : ℚ)) / (n : ℚ)

/-- The interpolated value of the `method='exclusive'` computation of
CPython `statistics.quantiles` at raw rank position `p` (the `i`-th cut
point corresponds to `p = i*m` with `m = ld + 1`), transcribed from the
CPython source: `j = p // n` clamped to `1 .. ld-1`, then
`delta = p - j*n` (exact integer math, possibly negative or exceeding `n`
after clamping), then the interpolation. -/
def interpAt (data : List ℚ) (n p : ℕ) : ℚ :=
  interpW data n (clampJ data.length n p)
    ((p : ℤ) - (clampJ data.length n p : ℤ) * (n : ℤ))

/-- The `i`-th of the `n`-quantile cut points computed by CPython
`statistics.quantiles(data, n)` with the default `method='exclusive'`
(`data` must already be sorted; `statistics.quantiles` sorts its input):
the interpolation at rank position `i * m` with `m = ld + 1`. -/
def quantilePoint (data : List ℚ) (n i : ℕ) : ℚ :=
  interpAt data n (i * (data.length + 1))

/-- The fallback branch of `_calc_percentiles` (source lines 294–297):
sort the millisecond-converted samples and index at
`max(0, int(len * pct / 100) - 1)`, rounding to 2 digits. -/
def fallbackPct (times : List ℚ) (pct : ℕ) : ℚ :=
  let times_ms := sortQ (times.map (fun u => u * 1000))
  let idx : ℤ := max 0 ((times.length * pct : ℤ) / 100 - 1)
  pyRoundTo (times_ms.getD idx.toNat 0) 2

/-- `_calc_percentiles` (source lines 288–297). `statistics.quantiles`
raises `StatisticsError` exactly when the sample list has fewer than two
elements, which is the only exception the `try` body can raise in this
model; the `except` then takes the fallback branch. The primary branch is
`round(1000.0 * statistics.quantiles(times, n=100)[int(pct)-1], 2)`, and
`quantiles(...)[pct-1]` is the cut point with index `i = pct`. -/
def calc_percentiles (times : List ℚ) (pct : ℕ) : ℚ :=
  if times.length = 0 then 0
  else if times.length < 2 then fallbackPct times pct
  else pyRoundTo (1000 * quantilePoint (sortQ times) 100 pct) 2

/-- The snapshot dict returned by `_get_metrics_copy`
(source lines 300–334). -/
structure MetricsSnapshot where
  active_clients : ℤ
  total_requests : ℕ
  average_response_time : ℚ
  p95_ms : ℚ
  p99_ms : ℚ
  recent_requests : List RecentEntry
  cache_enabled : Bool
  cache_hits : ℕ
  cache_misses : ℕ
  unique_sessions : ℕ
  thread_pool_size : ℕ
  queue_size : ℕ
  latency_trend : List ℚ
  status_codes : List (String × ℕ)
  geo : List (String × ℕ)
  session_summary : List SessionRow
deriving DecidableEq

/-- `_get_metrics_copy` (source lines 300–334): a consistent snapshot of
the aggregate state, with percentiles computed from the sampled window,
the recent-request list cut to its first 20 entries, and the session
summary built from the first 20 sessions in insertion order. -/
def get_metrics_copy (s : ServerState) : MetricsSnapshot :=
  let times := s.response_times
  { active_clients := s.active_clients
    total_requests := s.total_requests
    average_response_time := pyRoundTo s.average_response_time 4
    p95_ms := calc_percentiles times 95
    p99_ms := calc_percentiles times 99
    recent_requests := s.recent_requests.take 20
    cache_enabled := s.cache_enabled
    cache_hits := s.cache_hits
    cache_misses := s.cache_misses
    unique_sessions := s.session_data.length
    thread_pool_size := s.thread_pool_size
    queue_size := s.queue_size
    latency_trend := takeLast MAX_LAT s.latency_trend
    status_codes := s.status_codes
    geo := s.geo
    session_summary := (s.session_data.map (fun p => p.2)).take 20 }

/-- `toggle_cache` (source lines 340–345): flip the flag; when the new
value is "disabled", clear the whole file cache. Returns the new flag and
the new state. -/
def toggle_cache (s : ServerState) : Bool × ServerState :=
  let e := !s.cache_enabled
  (e, { s with cache_enabled := e,
               file_cache := if e then s.file_cache else [] })

/-!
Interleaving model for two request-handler threads serving the same peer
IP on their first contact. `WebServer.record` runs entirely under
`metrics_lock`, so its session book-keeping (source lines 254–264) is one
atomic step. `_ensure_session_for_ip` (source lines 178–190), however,
performs its membership check `if ip in session_data` and its insert
`session_data[ip] = {...}` WITHOUT holding `metrics_lock` (the lock is
only taken afterwards for the `unique_sessions` count), and many
bytecodes (including the `uuid.uuid4()` call) separate them, so another
thread can interleave between the check and the insert. The model below
keeps just the session row for that one IP: the `sid` field records which
thread's id was last stored, `hit` is the row's `hit_count`.
-/

/-- The `session_data[ip]` row, reduced to the fields that distinguish
interleavings: which thread's session id is stored, and the hit count. -/
structure RaceRow where
  sid : ℕ
  hit : ℕ
deriving DecidableEq

/-- Per-thread control state: `pc = 0` before the membership check of
`_ensure_session_for_ip`, `1` between its check and its insert, `2` after
the insert (before `record`), `3` after `record`. `sawPresent` is the
result of the check. -/
structure ThreadSt where
  pc : ℕ
  sawPresent : Bool
deriving DecidableEq

/-- Global state of the two-thread run: the (single-key) session table and
both thread states. -/
structure RaceState where
  sess : Option RaceRow
  t1 : ThreadSt
  t2 : ThreadSt
deriving DecidableEq

/-- One atomic step of a thread with session id `sid`:
`pc 0` — the unlocked check `ip in session_data`;
`pc 1` — return the stored id if the check saw one, else the unlocked
insert `session_data[ip] = {.. hit_count: 0 ..}` (an overwrite if another
thread inserted meanwhile);
`pc 2` — the lock-protected session block of `record` (create-if-absent
with hit 0, then `hit_count += 1`), atomic as one step. -/
def threadStep (sid : ℕ) (g : Option RaceRow) (ts : ThreadSt) :
    Option RaceRow × ThreadSt :=
  match ts.pc with
  | 0 => (g, { pc := 1, sawPresent := g.isSome })
  | 1 => (if ts.sawPresent then g else some ⟨sid, 0⟩,
          { ts with pc := 2 })
  | 2 =>
      (match g with
       | none => some ⟨sid, 1⟩
       | some r => some { r with hit := r.hit + 1 },
       { ts with pc := 3 })
  | _ => (g, ts)

/-- Run one scheduler step: `true` advances thread 1, `false` thread 2. -/
def raceStep (g : RaceState) (tid : Bool) : RaceState :=
  if tid then
    let r := threadStep 1 g.sess g.t1
    { g with sess := r.1, t1 := r.2 }
  else
    let r := threadStep 2 g.sess g.t2
    { g with sess := r.1, t2 := r.2 }

/-- Run a whole schedule. -/
def raceRun (sched : List Bool) (g : RaceState) : RaceState :=
  sched.foldl raceStep g

/-- Both threads at their first instruction, no session for the IP yet
(first contact). -/
def raceInit : RaceState :=
  { sess := none, t1 := ⟨0, false⟩, t2 := ⟨0, false⟩ }

/-! ## Association-list lemmas -/

theorem alGet_alSet_self {β : Type} (l : List (String × β)) (k : String)
    (v : β) : alGet (alSet l k v) k = some v := by
  induction l with
  | nil => simp [alSet, alGet]
  | cons p t ih =>
      obtain ⟨k', v'⟩ := p
      by_cases h : k' = k
      · simp [alSet, alGet, h]
      · simp [alSet, alGet, h, ih]

theorem alGetD_alBump_self (l : List (String × ℕ)) (k : String) :
    alGetD (alBump l k) k 0 = alGetD l k 0 + 1 := by
  simp [alBump, alGetD, alGet_alSet_self]

theorem recordSession_device (sd : List (String × SessionRow))
    (ip path device sid : String) (t : ℕ) :
    (alGet (recordSession sd ip path device sid t) ip).map
      SessionRow.device_type = some device := by
  unfold recordSession
  cases h : alGet sd ip with
  | none => simp [h, alGet_alSet_self]
  | some r => simp [h, alGet_alSet_self]

/-! ## Claim theorems -/

/-- C10: every metrics snapshot exposes at most 20 recent-request entries
and at most 20 session summaries, although the internal recent log keeps
up to 100; the exposed recent requests are a prefix of the newest-first
internal log (hence the newest ones) and the session summary is built from
the first 20 sessions in insertion order. -/
theorem snapshot_bounded_views (s : ServerState) :
    (get_metrics_copy s).recent_requests.length ≤ 20 ∧
    (get_metrics_copy s).session_summary.length ≤ 20 ∧
    (get_metrics_copy s).recent_requests <+: s.recent_requests ∧
    (get_metrics_copy s).session_summary =
      (s.session_data.map (fun p => p.2)).take 20 := by
  refine ⟨?_, ?_, ?_, rfl⟩
  · simp [get_metrics_copy, List.length_take]
  · simp [get_metrics_copy, List.length_take]
  · exact ⟨s.recent_requests.drop 20, List.take_append_drop _ _⟩

/-- C9 (bug demonstration): under the sequential schedule the session row
ends with hit count 2, but under the interleaving in which thread 2's
unlocked membership check precedes thread 1's insert, thread 2's later
insert overwrites the row (after thread 1's `record` already counted its
hit), and the run ends with a single session row whose hit count is 1,
not 2. -/
theorem session_race_lost_hit :
    (raceRun [true, true, true, false, false, false] raceInit).sess =
      some { sid := 1, hit := 2 } ∧
    (raceRun [false, true, true, true, false, false] raceInit).sess =
      some { sid := 2, hit := 1 } := by decide

/-- C6: `toggle_cache` flips the flag; whenever the flip disables the
cache it clears every entry, so that a subsequent `get_file` for any path
(in particular a previously cached one) takes the miss path: it bumps the
miss counter, leaves the hit counter alone, and returns the disk
resolution result. -/
theorem toggle_cache_flips_and_evicts (s : ServerState) :
    (toggle_cache s).1 = !s.cache_enabled ∧
    (toggle_cache s).2.cache_enabled = !s.cache_enabled ∧
    ((toggle_cache s).2.cache_enabled = false →
      (toggle_cache s).2.file_cache = []) ∧
    (s.cache_enabled = true →
      ∀ (fs : String → FsEntry) (path : String),
        (get_file (toggle_cache s).2 fs path).2.cache_misses =
          (toggle_cache s).2.cache_misses + 1 ∧
        (get_file (toggle_cache s).2 fs path).2.cache_hits =
          (toggle_cache s).2.cache_hits ∧
        (get_file (toggle_cache s).2 fs path).1 = diskResolve fs path) := by
  refine ⟨rfl, rfl, ?_, ?_⟩
  · intro h
    simp only [toggle_cache] at h ⊢
    simp [h]
  · intro hs fs path
    simp only [toggle_cache, hs, Bool.not_true]
    cases h : fs (locOf path) <;>
      simp [get_file, diskResolve, h]

/-- C6 witness: instantiating at the initial state (cache enabled) and an
all-absent filesystem. -/
theorem toggle_cache_flips_and_evicts_witness :
    (get_file (toggle_cache initState).2 (fun _ => FsEntry.absent) "/a").2.cache_misses =
      (toggle_cache initState).2.cache_misses + 1 :=
  ((toggle_cache_flips_and_evicts initState).2.2.2 rfl
    (fun _ => FsEntry.absent) "/a").1

/-- C7: when the cache cannot answer (cache disabled or path not cached)
and disk resolution fails, `get_file` returns the 404 body (absent path)
or the 500 body (read error) and leaves the cache mapping unchanged in
both cases. -/
theorem get_file_failure_no_cache (s : ServerState)
    (fs : String → FsEntry) (path : String)
    (hmiss : s.cache_enabled = false ∨ alGet s.file_cache path = none) :
    (fs (locOf path) = FsEntry.absent →
      (get_file s fs path).1 = ("<h1>404 - Not Found</h1>", 404) ∧
      (get_file s fs path).2.file_cache = s.file_cache) ∧
    (fs (locOf path) = FsEntry.readError →
      (get_file s fs path).1 = ("<h1>500 - File read error</h1>", 500) ∧
      (get_file s fs path).2.file_cache = s.file_cache) := by
  have hc : (s.cache_enabled && (alGet s.file_cache path).isSome) = false := by
    rcases hmiss with h | h <;> simp [h]
  constructor <;> intro h <;> simp [get_file, hc, h]

/-- C7 witness: the initial state has an empty cache, so resolution of any
path reaches the (absent) disk and yields 404 without touching the
cache. -/
theorem get_file_failure_no_cache_witness :
    (get_file initState (fun _ => FsEntry.absent) "/nope").1 =
      ("<h1>404 - Not Found</h1>", 404) ∧
    (get_file initState (fun _ => FsEntry.absent) "/nope").2.file_cache =
      initState.file_cache :=
  (get_file_failure_no_cache initState (fun _ => FsEntry.absent) "/nope"
    (Or.inr rfl)).1 rfl

theorem record_active_clients (s : ServerState) (ip path : String) (rt : ℚ)
    (code : ℕ) (device : String) (t : ℕ) (sid : String) :
    (record s ip path rt code device t sid).active_clients =
      s.active_clients := rfl

theorem get_file_active_clients (s : ServerState) (fs : String → FsEntry)
    (path : String) :
    (get_file s fs path).2.active_clients = s.active_clients := by
  unfold get_file
  split
  · rfl
  · cases fs (locOf path) <;>
      first
        | rfl
        | (dsimp only; split <;> rfl)

theorem ensure_session_active_clients (s : ServerState) (ip sid : String)
    (t : ℕ) :
    (ensure_session_for_ip s ip sid t).2.active_clients =
      s.active_clients := by
  unfold ensure_session_for_ip
  cases alGet s.session_data ip <;> rfl

/-- C8: over every modelled request lifecycle — empty read, malformed
request line (400 path), over-long request line (`ValueError` caught by
the outer handler), successful response, or a send failure — the
active-client counter after `handle_client` equals its value before: the
increment at entry is balanced by the clamped decrement in the `finally`
block, provided the counter was non-negative (as it always is, starting
from 0 and never clamped below 0). -/
theorem handle_client_active_balanced (s : ServerState)
    (fs : String → FsEntry) (ip req : String) (rt : ℚ) (t : ℕ)
    (sid : String) (send_ok : Bool) (h : 0 ≤ s.active_clients) :
    (handle_client s fs ip req rt t sid send_ok).2.active_clients =
      s.active_clients := by
  unfold handle_client
  dsimp only
  split
  · dsimp only; omega
  · split
    · rw [record_active_clients]; dsimp only; omega
    · split
      · dsimp only; omega
      · split
        · rw [record_active_clients, ensure_session_active_clients,
            get_file_active_clients]
          dsimp only; omega
        · rw [ensure_session_active_clients, get_file_active_clients]
          dsimp only; omega

/-- C8 witness: an empty read on the initial state (counter 0) leaves the
counter at 0. -/
theorem handle_client_active_balanced_witness :
    (0 : ℤ) ≤ initState.active_clients ∧
    (handle_client initState (fun _ => FsEntry.absent) "1.2.3.4" "" 0 0 "s0"
      true).2.active_clients = initState.active_clients :=
  ⟨le_refl 0,
    handle_client_active_balanced initState (fun _ => FsEntry.absent)
      "1.2.3.4" "" 0 0 "s0" true (le_refl 0)⟩

/-- C1: a non-empty request whose request line has fewer than 3
whitespace-separated tokens is answered with the fixed 400 response; the
outcome is recorded (path "/", device "unknown" on the session row), and
the "400" entry of the status-code histogram grows by exactly one. -/
theorem handle_client_malformed_400 (s : ServerState)
    (fs : String → FsEntry) (ip req : String) (rt : ℚ) (t : ℕ)
    (sid : String) (send_ok : Bool) (hne : req ≠ "")
    (hmal : (pySplit ((pySplitCRLF req).headD "")).length < 3) :
    (handle_client s fs ip req rt t sid send_ok).1 = some badRequestResp ∧
    alGetD (handle_client s fs ip req rt t sid send_ok).2.status_codes
        "400" 0 =
      alGetD s.status_codes "400" 0 + 1 ∧
    (alGet (handle_client s fs ip req rt t sid send_ok).2.session_data
        ip).map SessionRow.device_type = some "unknown" ∧
    (handle_client s fs ip req rt t sid send_ok).2.recent_requests.head? =
      some { ip := ip, path := "/", response_time := pyRoundTo rt 4,
             status_code := 400, time := t,
             country := guess_country_from_ip ip } := by
  unfold handle_client
  dsimp only
  rw [if_neg hne, if_pos hmal]
  dsimp only
  refine ⟨rfl, ?_, ?_, ?_⟩
  · have h400 : toString (400 : ℕ) = "400" := rfl
    simp only [record, h400]
    exact alGetD_alBump_self s.status_codes "400"
  · simp only [record]
    exact recordSession_device s.session_data ip "/" "unknown" sid t
  · simp only [record, MAX_RECENT, List.take_succ_cons, List.head?_cons]

/-- C1 witness: the request "GET /" has a 2-token request line. -/
theorem handle_client_malformed_400_witness :
    ("GET /" ≠ "" ∧
      (pySplit ((pySplitCRLF "GET /").headD "")).length < 3) ∧
    (handle_client initState (fun _ => FsEntry.absent) "1.2.3.4" "GET /" 0 0
        "s0" true).1 = some badRequestResp ∧
    alGetD (handle_client initState (fun _ => FsEntry.absent) "1.2.3.4"
        "GET /" 0 0 "s0" true).2.status_codes "400" 0 =
      alGetD initState.status_codes "400" 0 + 1 :=
  ⟨⟨by decide, by decide⟩,
    (handle_client_malformed_400 initState (fun _ => FsEntry.absent)
      "1.2.3.4" "GET /" 0 0 "s0" true (by decide) (by decide)).1,
    (handle_client_malformed_400 initState (fun _ => FsEntry.absent)
      "1.2.3.4" "GET /" 0 0 "s0" true (by decide) (by decide)).2.1⟩

/-- C4: after every record, the recent-request log holds at most 100
entries and starts with the entry just inserted; if the prior log was
ordered newest-first and the new timestamp is no older than every logged
one, the log remains ordered newest-first. -/
theorem record_recent_bounded_newest_first (s : ServerState)
    (ip path : String) (rt : ℚ) (code : ℕ) (device : String) (t : ℕ)
    (sid : String) :
    (record s ip path rt code device t sid).recent_requests.length ≤ 100 ∧
    (record s ip path rt code device t sid).recent_requests.head? =
      some { ip := ip, path := path, response_time := pyRoundTo rt 4,
             status_code := code, time := t,
             country := guess_country_from_ip ip } ∧
    (s.recent_requests.Sorted (fun a b => b.time ≤ a.time) →
      (∀ e ∈ s.recent_requests, e.time ≤ t) →
      (record s ip path rt code device t sid).recent_requests.Sorted
        (fun a b => b.time ≤ a.time)) := by
  refine ⟨?_, ?_, ?_⟩
  · simp [record, MAX_RECENT, List.length_take]
  · simp only [record, MAX_RECENT, List.take_succ_cons, List.head?_cons]
  · intro hsorted hle
    simp only [record, MAX_RECENT, List.take_succ_cons]
    rw [List.sorted_cons]
    exact ⟨fun b hb => hle b (List.take_subset _ _ hb),
      List.Pairwise.sublist (List.take_sublist _ _) hsorted⟩

/-- C4 witness: recording into the initial (empty, trivially sorted) log
with timestamp 5. -/
theorem record_recent_bounded_newest_first_witness :
    (record initState "1.2.3.4" "/a" 0 200 "desktop" 5 "s0").recent_requests.Sorted
      (fun a b => b.time ≤ a.time) :=
  (record_recent_bounded_newest_first initState "1.2.3.4" "/a" 0 200
    "desktop" 5 "s0").2.2 (by simp [initState]) (by simp [initState])

theorem list_min_le_of_mem {l : List ℚ} {m x : ℚ} (hm : l.min? = some m)
    (hx : x ∈ l) : m ≤ x := by
  haveI : Std.Antisymm ((· : ℚ) ≤ ·) := ⟨fun h h' => le_antisymm h h'⟩
  have h := (List.min?_eq_some_iff (fun a => le_refl a)
    (fun a b => min_choice a b) (fun a b c => le_min_iff)).mp hm
  exact h.2 x hx

theorem list_le_max_of_mem {l : List ℚ} {m x : ℚ} (hm : l.max? = some m)
    (hx : x ∈ l) : x ≤ m := by
  haveI : Std.Antisymm ((· : ℚ) ≤ ·) := ⟨fun h h' => le_antisymm h h'⟩
  have h := (List.max?_eq_some_iff (fun a => le_refl a)
    (fun a b => max_choice a b) (fun a b c => max_le_iff)).mp hm
  exact h.2 x hx

theorem avg_between (w : List ℚ) (hw : w ≠ []) (mn mx : ℚ)
    (hmn : ∀ x ∈ w, mn ≤ x) (hmx : ∀ x ∈ w, x ≤ mx) :
    mn ≤ w.sum / (w.length : ℚ) ∧ w.sum / (w.length : ℚ) ≤ mx := by
  have hlen : 0 < (w.length : ℚ) := by
    have := List.length_pos.mpr hw
    exact_mod_cast this
  constructor
  · rw [le_div_iff₀ hlen]
    have h := List.card_nsmul_le_sum w mn hmn
    rwa [nsmul_eq_mul, mul_comm] at h
  · rw [div_le_iff₀ hlen]
    have h := List.sum_le_card_nsmul w mx hmx
    rwa [nsmul_eq_mul, mul_comm] at h

/-- C5: after every record, the rolling response-time window holds at most
2000 samples (and is non-empty), and the recomputed average lies between
the window minimum and maximum. -/
theorem record_window_bounded_avg (s : ServerState) (ip path : String)
    (rt : ℚ) (code : ℕ) (device : String) (t : ℕ) (sid : String) :
    (record s ip path rt code device t sid).response_times.length ≤ 2000 ∧
    (record s ip path rt code device t sid).response_times ≠ [] ∧
    ∀ mn mx : ℚ,
      (record s ip path rt code device t sid).response_times.min? = some mn →
      (record s ip path rt code device t sid).response_times.max? = some mx →
      mn ≤ (record s ip path rt code device t sid).average_response_time ∧
      (record s ip path rt code device t sid).average_response_time ≤ mx := by
  have hlen : (takeLast 2000 (s.response_times ++ [rt])).length =
      min (s.response_times.length + 1) 2000 := by
    simp [takeLast, List.length_drop]
    omega
  have hne : takeLast 2000 (s.response_times ++ [rt]) ≠ [] := by
    intro h
    have := congrArg List.length h
    rw [hlen] at this
    simp at this
  refine ⟨by simp [record, hlen], by simpa [record] using hne, ?_⟩
  intro mn mx hmn hmx
  simp only [record] at hmn hmx ⊢
  rw [if_neg (by simpa [List.length_eq_zero] using hne)]
  exact avg_between _ hne mn mx
    (fun x hx => list_min_le_of_mem hmn hx)
    (fun x hx => list_le_max_of_mem hmx hx)

/-- C5 witness: recording response time 0 into the initial state makes the
window [0] with minimum and maximum 0, and average 0. -/
theorem record_window_bounded_avg_witness :
    (record initState "1.2.3.4" "/a" 0 200 "desktop" 5 "s0").response_times.min? =
      some 0 ∧
    (record initState "1.2.3.4" "/a" 0 200 "desktop" 5 "s0").response_times.max? =
      some 0 ∧
    (0 : ℚ) ≤ (record initState "1.2.3.4" "/a" 0 200 "desktop" 5
      "s0").average_response_time :=
  ⟨rfl, rfl,
    ((record_window_bounded_avg initState "1.2.3.4" "/a" 0 200 "desktop" 5
      "s0").2.2 0 0 rfl rfl).1⟩

/-- C2 counterexample: on the two-sample list [1 ms, 2 ms] at percentile
95, the claimed index floor(n·p/100) = floor(2·95/100) = 1 selects the
element 2 ms, but the fallback in `_calc_percentiles` computes
`max(0, int(n·p/100) - 1) = 0` and returns 1 ms. -/
theorem fallback_index_counterexample :
    fallbackPct [1/1000, 2/1000] 95 ≠
      (sortQ (([1/1000, 2/1000] : List ℚ).map (fun u => u * 1000))).getD
        (([1/1000, 2/1000] : List ℚ).length * 95 / 100) 0 := by
  have hmap : ([1/1000, 2/1000] : List ℚ).map (fun u => u * 1000) = [1, 2] := by
    norm_num
  have hsort : sortQ ([1, 2] : List ℚ) = [1, 2] := by
    norm_num [sortQ, List.insertionSort, List.orderedInsert]
  have hfb : fallbackPct [1/1000, 2/1000] 95 = 1 := by
    simp only [fallbackPct, hmap, hsort]
    norm_num [pyRoundTo, rhe]
  rw [hfb, hmap, hsort]
  norm_num [List.getD_cons_succ, List.getD_cons_zero]

/-- C2 amended: for every non-empty sample list and percentile p ≤ 100,
the fallback percentile computation returns (rounded to 2 decimal digits)
the element of the sorted millisecond-converted samples at index
`max(0, floor(n·p/100) − 1)` — a valid index — rather than the claimed
`floor(n·p/100)`. -/
theorem fallback_percentile_index (times : List ℚ) (pct : ℕ)
    (hne : times ≠ []) (hp : pct ≤ 100) :
    ∃ h : (max 0 ((times.length * pct : ℤ) / 100 - 1)).toNat <
        (sortQ (times.map (fun u => u * 1000))).length,
      fallbackPct times pct =
        pyRoundTo ((sortQ (times.map (fun u => u * 1000))).get
          ⟨(max 0 ((times.length * pct : ℤ) / 100 - 1)).toNat, h⟩) 2 := by
  have hlen : (sortQ (times.map (fun u => u * 1000))).length = times.length := by
    rw [sortQ, (List.perm_insertionSort _ _).length_eq, List.length_map]
  have hn : 0 < times.length := List.length_pos.mpr hne
  have hcast : (times.length * pct : ℤ) / 100 =
      ((times.length * pct / 100 : ℕ) : ℤ) := by
    rw [Int.ofNat_ediv]
    push_cast
    rfl
  have hkle : times.length * pct / 100 ≤ times.length := by
    calc times.length * pct / 100
        ≤ times.length * 100 / 100 :=
          Nat.div_le_div_right (Nat.mul_le_mul_left _ hp)
      _ = times.length := Nat.mul_div_cancel times.length (by norm_num)
  have hidx : (max 0 ((times.length * pct : ℤ) / 100 - 1)).toNat =
      times.length * pct / 100 - 1 := by
    rw [hcast]; omega
  have hlt : (max 0 ((times.length * pct : ℤ) / 100 - 1)).toNat <
      (sortQ (times.map (fun u => u * 1000))).length := by
    rw [hidx, hlen]; omega
  refine ⟨hlt, ?_⟩
  show pyRoundTo ((sortQ (times.map (fun u => u * 1000))).getD
      (max 0 ((times.length * pct : ℤ) / 100 - 1)).toNat 0) 2 = _
  rw [List.getD_eq_getElem _ 0 hlt]
  rfl

/-- C2 amended witness: on the singleton sample list. -/
theorem fallback_percentile_index_witness :
    (([(1:ℚ)] : List ℚ) ≠ [] ∧ (95:ℕ) ≤ 100) ∧
    ∃ h : (max 0 ((([(1:ℚ)] : List ℚ).length * 95 : ℤ) / 100 - 1)).toNat <
        (sortQ (([(1:ℚ)] : List ℚ).map (fun u => u * 1000))).length,
      fallbackPct [(1:ℚ)] 95 =
        pyRoundTo ((sortQ (([(1:ℚ)] : List ℚ).map (fun u => u * 1000))).get
          ⟨(max 0 ((([(1:ℚ)] : List ℚ).length * 95 : ℤ) / 100 - 1)).toNat,
            h⟩) 2 :=
  ⟨⟨by simp, by norm_num⟩,
    fallback_percentile_index [(1:ℚ)] 95 (by simp) (by norm_num)⟩

theorem rhe_ge_floor (x : ℚ) : ⌊x⌋ ≤ rhe x := by
  unfold rhe; dsimp only; split_ifs <;> omega

theorem rhe_le_floor_add_one (x : ℚ) : rhe x ≤ ⌊x⌋ + 1 := by
  unfold rhe; dsimp only; split_ifs <;> omega

theorem rhe_mono {x y : ℚ} (h : x ≤ y) : rhe x ≤ rhe y := by
  rcases lt_or_le ⌊x⌋ ⌊y⌋ with hf | hf
  · have h1 := rhe_le_floor_add_one x
    have h2 := rhe_ge_floor y
    omega
  · have hfe : ⌊x⌋ = ⌊y⌋ := le_antisymm (Int.floor_mono h) hf
    unfold rhe
    dsimp only
    rw [hfe]
    have hxy : x - (⌊y⌋ : ℚ) ≤ y - (⌊y⌋ : ℚ) := by linarith
    split_ifs <;> first | omega | linarith

theorem pyRoundTo_mono (d : ℕ) {x y : ℚ} (h : x ≤ y) :
    pyRoundTo x d ≤ pyRoundTo y d := by
  unfold pyRoundTo
  have hpow : (0:ℚ) < 10 ^ d := by positivity
  rw [div_le_div_iff_of_pos_right hpow]
  exact_mod_cast rhe_mono (mul_le_mul_of_nonneg_right h (le_of_lt hpow))

theorem sorted_getD_mono {d : List ℚ} (hs : d.Sorted (· ≤ ·)) {a b : ℕ}
    (hab : a ≤ b) (hb : b < d.length) : d.getD a 0 ≤ d.getD b 0 := by
  have ha : a < d.length := lt_of_le_of_lt hab hb
  rw [List.getD_eq_getElem _ 0 ha, List.getD_eq_getElem _ 0 hb]
  exact @List.Sorted.rel_get_of_le ℚ (· ≤ ·) _ d hs ⟨a, ha⟩ ⟨b, hb⟩ hab

theorem clampJ_cases (ld p : ℕ) (hld : 2 ≤ ld) :
    (clampJ ld 100 p = 1 ∧ p / 100 < 1) ∨
    (clampJ ld 100 p = ld - 1 ∧ ld - 1 < p / 100) ∨
    (clampJ ld 100 p = p / 100 ∧ 1 ≤ p / 100 ∧ p / 100 ≤ ld - 1) := by
  unfold clampJ
  dsimp only
  split_ifs <;> omega

theorem clampJ_mono (ld : ℕ) {p1 p2 : ℕ} (hld : 2 ≤ ld) (hp : p1 ≤ p2) :
    clampJ ld 100 p1 ≤ clampJ ld 100 p2 := by
  have hdiv : p1 / 100 ≤ p2 / 100 := Nat.div_le_div_right hp
  unfold clampJ
  dsimp only
  split_ifs <;> omega

theorem interpW_mono_delta (d : List ℚ) (n j : ℕ) (d1 d2 : ℤ)
    (hn : 0 < n) (hab : d.getD (j - 1) 0 ≤ d.getD j 0) (h : d1 ≤ d2) :
    interpW d n j d1 ≤ interpW d n j d2 := by
  unfold interpW
  have hnq : (0:ℚ) < (n:ℚ) := by exact_mod_cast hn
  rw [div_le_div_iff_of_pos_right hnq]
  have hdq : (d1 : ℚ) ≤ (d2 : ℚ) := by exact_mod_cast h
  nlinarith [mul_nonneg (sub_nonneg.mpr hab) (sub_nonneg.mpr hdq)]

theorem interpW_at_zero (d : List ℚ) (n j : ℕ) (hn : 0 < n) :
    interpW d n j 0 = d.getD (j - 1) 0 := by
  unfold interpW
  have hnq : ((n:ℚ)) ≠ 0 := Nat.cast_ne_zero.mpr hn.ne'
  push_cast
  field_simp

theorem interpW_at_n (d : List ℚ) (n j : ℕ) (hn : 0 < n) :
    interpW d n j (n : ℤ) = d.getD j 0 := by
  unfold interpW
  have hnq : ((n:ℚ)) ≠ 0 := Nat.cast_ne_zero.mpr hn.ne'
  push_cast
  field_simp

theorem interpAt_eq (d : List ℚ) (n p : ℕ) :
    interpAt d n p = interpW d n (clampJ d.length n p)
      ((p : ℤ) - (clampJ d.length n p : ℤ) * (n : ℤ)) := rfl

/-- Monotonicity of the exclusive-method interpolation in the rank
position, over any sorted list with at least two samples. -/
theorem interpAt_mono (d : List ℚ) (p1 p2 : ℕ) (hs : d.Sorted (· ≤ ·))
    (hld : 2 ≤ d.length) (hp : p1 ≤ p2) :
    interpAt d 100 p1 ≤ interpAt d 100 p2 := by
  rw [interpAt_eq, interpAt_eq]
  have hr1 := clampJ_cases d.length p1 hld
  have hr2 := clampJ_cases d.length p2 hld
  set j1 := clampJ d.length 100 p1 with hj1def
  set j2 := clampJ d.length 100 p2 with hj2def
  have hrange1 : 1 ≤ j1 ∧ j1 ≤ d.length - 1 := by
    rcases hr1 with ⟨h, hq⟩ | ⟨h, hq⟩ | ⟨h, hq1, hq2⟩ <;> omega
  have hrange2 : 1 ≤ j2 ∧ j2 ≤ d.length - 1 := by
    rcases hr2 with ⟨h, hq⟩ | ⟨h, hq⟩ | ⟨h, hq1, hq2⟩ <;> omega
  have hj12 : j1 ≤ j2 := clampJ_mono d.length hld hp
  have hab1 : d.getD (j1 - 1) 0 ≤ d.getD j1 0 :=
    sorted_getD_mono hs (Nat.sub_le _ _) (by omega)
  have hab2 : d.getD (j2 - 1) 0 ≤ d.getD j2 0 :=
    sorted_getD_mono hs (Nat.sub_le _ _) (by omega)
  have hdm1 : 100 * (p1 / 100) + p1 % 100 = p1 := Nat.div_add_mod p1 100
  have hdm2 : 100 * (p2 / 100) + p2 % 100 = p2 := Nat.div_add_mod p2 100
  have hm1 : p1 % 100 < 100 := Nat.mod_lt _ (by norm_num)
  have hm2 : p2 % 100 < 100 := Nat.mod_lt _ (by norm_num)
  rcases eq_or_lt_of_le hj12 with hjeq | hjlt
  · rw [hjeq]
    exact interpW_mono_delta d 100 j2 _ _ (by norm_num) hab2 (by omega)
  · have hd1le : (p1 : ℤ) - (j1 : ℤ) * 100 ≤ ((100:ℕ) : ℤ) := by
      rcases hr1 with ⟨h, hq⟩ | ⟨h, hq⟩ | ⟨h, hq1, hq2⟩ <;> omega
    have hd2ge : (0 : ℤ) ≤ (p2 : ℤ) - (j2 : ℤ) * 100 := by
      rcases hr2 with ⟨h, hq⟩ | ⟨h, hq⟩ | ⟨h, hq1, hq2⟩ <;> omega
    calc interpW d 100 j1 ((p1 : ℤ) - (j1 : ℤ) * 100)
        ≤ interpW d 100 j1 ((100:ℕ) : ℤ) :=
          interpW_mono_delta d 100 j1 _ _ (by norm_num) hab1 hd1le
      _ = d.getD j1 0 := interpW_at_n d 100 j1 (by norm_num)
      _ ≤ d.getD (j2 - 1) 0 := sorted_getD_mono hs (by omega) (by omega)
      _ = interpW d 100 j2 0 := (interpW_at_zero d 100 j2 (by norm_num)).symm
      _ ≤ interpW d 100 j2 ((p2 : ℤ) - (j2 : ℤ) * 100) :=
          interpW_mono_delta d 100 j2 _ _ (by norm_num) hab2 hd2ge

/-- C3: for every response-time window the computed p95 is at most the
computed p99; on the empty window both percentiles are 0 (and the
single-element window goes through the fallback, which picks index 0 for
both percentiles). -/
theorem p95_le_p99 :
    (∀ times : List ℚ,
      calc_percentiles times 95 ≤ calc_percentiles times 99) ∧
    calc_percentiles [] 95 = 0 ∧ calc_percentiles [] 99 = 0 := by
  refine ⟨?_, rfl, rfl⟩
  intro times
  unfold calc_percentiles
  split_ifs with h0 h1
  · exact le_refl 0
  · have hl1 : times.length = 1 := by omega
    have heq : fallbackPct times 95 = fallbackPct times 99 := by
      unfold fallbackPct
      rw [hl1]
      norm_num
    exact le_of_eq heq
  · have hsorted : (sortQ times).Sorted (· ≤ ·) :=
      List.sorted_insertionSort _ _
    have hlen : (sortQ times).length = times.length :=
      (List.perm_insertionSort _ _).length_eq
    have hld : 2 ≤ (sortQ times).length := by omega
    apply pyRoundTo_mono
    have hq : quantilePoint (sortQ times) 100 95 ≤
        quantilePoint (sortQ times) 100 99 := by
      unfold quantilePoint
      exact interpAt_mono _ _ _ hsorted hld
        (Nat.mul_le_mul_right _ (by norm_num))
    have h1000 : (0:ℚ) ≤ 1000 := by norm_num
    exact mul_le_mul_of_nonneg_left hq h1000

end WebServerModel
